import Mathlib

/- Verification development for the resumerai repository.

The frontend modules under src/frontend and the API client module are
embedded directly from their JavaScript source.  The backend analysis
pipeline (normalizer, segmenter, extractors, scoring engine, suggestion
orchestrator, coordinator) is described by the repository documentation but
its implementation files are not present in the source tree, so those
components are modelled from the specification; each such definition carries
a doc comment saying so. -/

namespace ResumerAI

section LowercaseLemmas

/-- Helper: the code point of a valid `Char.ofNat` round-trips. -/
theorem charOfNatValid_toNat (n : Nat) (h : n.isValidChar) :
    (Char.ofNat n).toNat = n := by
  unfold Char.ofNat
  split
  · rfl
  · contradiction

/-- Helper: `Char.toLower` never produces an ASCII uppercase letter. -/
theorem charToLower_not_upper (c : Char) :
    ¬((c.toLower).toNat ≥ 65 ∧ (c.toLower).toNat ≤ 90) := by
  unfold Char.toLower
  by_cases h : c.toNat ≥ 65 ∧ c.toNat ≤ 90
  · rw [if_pos h]
    have hv : (c.toNat + 32).isValidChar := by
      obtain ⟨h1, h2⟩ := h
      left
      omega
    rw [charOfNatValid_toNat _ hv]
    omega
  · rw [if_neg h]
    exact h

/-- Helper: `Char.toLower` fixes characters that are not ASCII uppercase. -/
theorem charToLower_eq_self (c : Char) (h : ¬(c.toNat ≥ 65 ∧ c.toNat ≤ 90)) :
    c.toLower = c := by
  unfold Char.toLower
  rw [if_neg h]

/-- Helper: `Char.toLower` is idempotent. -/
theorem charToLower_idem (c : Char) : (c.toLower).toLower = c.toLower :=
  charToLower_eq_self _ (charToLower_not_upper c)

end LowercaseLemmas

section StringOps

/- The model works on the character lists underlying strings, with
structural recursion throughout, so that every definition evaluates inside
proofs. -/

/-- Lowercase a string characterwise. -/
def lowerStr (s : String) : String := String.mk (s.data.map Char.toLower)

/-- Helper: `lowerStr` is idempotent. -/
theorem lowerStr_idem (s : String) : lowerStr (lowerStr s) = lowerStr s := by
  unfold lowerStr
  show String.mk (List.map Char.toLower (List.map Char.toLower s.data)) =
    String.mk (List.map Char.toLower s.data)
  rw [List.map_map]
  congr 1
  apply List.map_congr_left
  intro a _
  exact charToLower_idem a

/-- Split a character list on a separator character. -/
def splitChar (sep : Char) : List Char → List (List Char)
  | [] => [[]]
  | c :: rest =>
    let r := splitChar sep rest
    if c == sep then [] :: r
    else
      match r with
      | [] => [[c]]
      | h :: t => (c :: h) :: t

/-- Split a string on a separator character. -/
def strSplit (sep : Char) (s : String) : List String :=
  (splitChar sep s.data).map String.mk

/-- Drop whitespace from both ends of a character list. -/
def trimChars (l : List Char) : List Char :=
  ((l.dropWhile Char.isWhitespace).reverse.dropWhile Char.isWhitespace).reverse

/-- Drop whitespace from both ends of a string. -/
def trimStr (s : String) : String := String.mk (trimChars s.data)

/-- Does the second character list start with the first? -/
def startsWithChars : List Char → List Char → Bool
  | [], _ => true
  | _ :: _, [] => false
  | p :: ps, c :: cs => p == c && startsWithChars ps cs

/-- Does the string start with the given pattern? -/
def strStartsWith (s pat : String) : Bool := startsWithChars pat.data s.data

/-- Does the string end with the given character? -/
def strEndsWith (s : String) (c : Char) : Bool :=
  match s.data.getLast? with
  | some d => d == c
  | none => false

/-- Drop the final character of a string. -/
def dropLastChar (s : String) : String := String.mk s.data.dropLast

/-- The numeric value of a decimal digit character. -/
def digitVal (c : Char) : Option Nat :=
  if c.isDigit then some (c.toNat - 48) else none

/-- Parse a non-empty all-digit character list as a decimal number. -/
def charsToNat? (l : List Char) : Option Nat :=
  if l.isEmpty then none
  else l.foldl (fun acc c =>
    match acc, digitVal c with
    | some a, some d => some (a * 10 + d)
    | _, _ => none) (some 0)

/-- Parse a string as a decimal number. -/
def strToNat? (s : String) : Option Nat := charsToNat? s.data

/-- The first `n` characters of a string. -/
def strTake (s : String) (n : Nat) : String := String.mk (s.data.take n)

/-- The string without its first `n` characters. -/
def strDrop (s : String) (n : Nat) : String := String.mk (s.data.drop n)

end StringOps

section FrontendDashboard

/-- Label/color pair returned by `getScoreLabel` in ResultsDashboard.jsx. -/
structure ScoreInfo where
  label : String
  color : String
deriving DecidableEq, Repr

/-- Embeds `getScoreLabel` from
src/frontend/src/components/ResultsDashboard.jsx lines 41 to 46.  Scores are
JavaScript numbers; they are modelled as rationals. -/
def getScoreLabel (score : ℚ) : ScoreInfo :=
  if score ≥ 90 then ⟨"Excellent", "success"⟩
  else if score ≥ 75 then ⟨"Good", "info"⟩
  else if score ≥ 60 then ⟨"Fair", "warning"⟩
  else ⟨"Needs Work", "error"⟩

/-- A skill chip as consumed by the dashboard (name and count fields). -/
structure FrontSkill where
  name : String
  count : Nat
deriving DecidableEq, Repr

/-- The `skills` object of the analysis payload consumed by the dashboard. -/
structure DashSkills where
  technical : List FrontSkill
  soft : List FrontSkill
deriving DecidableEq, Repr

/-- An experience entry as consumed by the dashboard timeline. -/
structure DashExperience where
  title : String
  company : String
  responsibilities : List String
deriving DecidableEq, Repr

/-- The slice of the analysis payload that the dashboard truncates. -/
structure DashData where
  skills : DashSkills
  experience : List DashExperience
deriving DecidableEq, Repr

/-- Embeds the technical-skill rendering of ResultsDashboard.jsx line 346:
`data.skills.technical.slice(0, 20).map(...)`. -/
def renderedTechnical (d : DashData) : List FrontSkill :=
  d.skills.technical.take 20

/-- Embeds the soft-skill rendering of ResultsDashboard.jsx line 364:
`data.skills.soft.slice(0, 10).map(...)`. -/
def renderedSoft (d : DashData) : List FrontSkill :=
  d.skills.soft.take 10

/-- Embeds the responsibility rendering of ResultsDashboard.jsx line 396:
`exp.responsibilities.slice(0, 3).map(...)`. -/
def renderedResponsibilities (e : DashExperience) : List String :=
  e.responsibilities.take 3

end FrontendDashboard

section ApiClient

/-- The possible outcomes of the axios POST in the API service module:
a resolved response carrying the `success` flag, the payload and an optional
`error.message`; an HTTP error response (error.response set) with an optional
server `error.message`; a request that got no response (error.request set);
or a failure setting up the request, whose Error carries an optional
(possibly empty, hence Option) message.  An absent or empty string message
is modelled as `none` because JavaScript treats both as falsy under `||`. -/
inductive ServerReply (α : Type) where
  | ok (success : Bool) (payload : α) (errMessage : Option String)
  | httpError (errMessage : Option String)
  | noResponse
  | setupFailure (message : Option String)
deriving DecidableEq, Repr

/-- JavaScript `m || d` on an optional string: the default wins when the
string is absent or empty (falsy). -/
def jsOr (m : Option String) (d : String) : String :=
  match m with
  | none => d
  | some s => if s.isEmpty then d else s

/-- Embeds `analyzeResume` from the API service module (src/unnamed/part_005
lines 24 to 66).  A `success: false` body raises inside the try block, so its
message additionally passes through the final catch branch
(`error.message || An unexpected error occurred`), hence the nested `jsOr`. -/
def analyzeResume {α : Type} (r : ServerReply α) : Except String α :=
  match r with
  | .ok true payload _ => .ok payload
  | .ok false _ em =>
      .error (jsOr (some (jsOr em "Analysis failed")) "An unexpected error occurred")
  | .httpError em => .error (jsOr em "Server error occurred")
  | .noResponse => .error "No response from server. Please check your connection."
  | .setupFailure m => .error (jsOr m "An unexpected error occurred")

/-- Restates claim C9 as a function: return the data exactly on
`success: true`; otherwise throw with the server message when present and a
fixed per-case fallback message otherwise. -/
def analyzeResumeClaim {α : Type} (r : ServerReply α) : Except String α :=
  match r with
  | .ok true payload _ => .ok payload
  | .ok false _ em => .error (jsOr em "Analysis failed")
  | .httpError em => .error (jsOr em "Server error occurred")
  | .noResponse => .error "No response from server. Please check your connection."
  | .setupFailure m => .error (jsOr m "An unexpected error occurred")

end ApiClient

section PipelineModel

/-- Modelled from the spec: skill categories of the data model (section 3);
the backend extractor implementation is absent from the source tree. -/
inductive SkillCategory where
  | programming_language
  | framework
  | database
  | tool
  | soft_skill
  | other
deriving DecidableEq, Repr

/-- Modelled from the spec: a Skill of the data model (section 3), unique by
normalized lowercase name within a category, with derived proficiency. -/
structure Skill where
  name : String
  category : SkillCategory
  occurrence_count : Nat
  proficiency : String
deriving DecidableEq, Repr

/-- Modelled from the spec: normalized year-month dates produced by the
experience date parsing (section 4.4). -/
structure YearMonth where
  year : Nat
  month : Nat
deriving DecidableEq, Repr

/-- Modelled from the spec: an ExperienceEntry of the data model (section 3);
a missing end date means the role is open ended. -/
structure ExperienceEntry where
  title : String
  company : String
  start_date : YearMonth
  end_date : Option YearMonth
  duration_months : Nat
  responsibilities : List String
deriving DecidableEq, Repr

/-- Modelled from the spec: an EducationEntry of the data model (section 3). -/
structure EducationEntry where
  degree : String
  field : String
  institution : String
  year : Option Nat
deriving DecidableEq, Repr

/-- Modelled from the spec: the ContentMetrics of the data model (section 3),
all computed once over the whole document.  The first field uses the name
`action_verb_usage` as in the payload consumed by ResultsDashboard.jsx. -/
structure ContentMetrics where
  action_verb_usage : ℚ
  quantification_rate : ℚ
  keyword_density : ℚ
  avg_bullet_length : ℚ
deriving DecidableEq, Repr

/-- Modelled from the spec: a per-section score with its issue log
(section 3). -/
structure SectionScore where
  score : ℚ
  issues : List String
deriving DecidableEq, Repr

/-- Modelled from the spec: the suggestion priority enumeration. -/
inductive Priority where
  | high
  | medium
  | low
deriving DecidableEq, Repr, BEq

/-- Modelled from the spec: a normalized Suggestion of the data model. -/
structure Suggestion where
  category : String
  priority : Priority
  text : String
  rationale : Option String
  examples : List String
deriving DecidableEq, Repr

/-- Modelled from the spec: a raw suggestion as returned by the external
service, before validation (priority still a plain string). -/
structure RawSuggestion where
  category : String
  priority : String
  text : String
  rationale : Option String
  examples : List String
deriving DecidableEq, Repr

/-- Modelled from the spec: the skills part of the output contract
(section 6): technical and soft skill lists. -/
structure SkillsOut where
  technical : List Skill
  soft : List Skill
deriving DecidableEq, Repr

/-- Modelled from the spec: the AnalysisResult aggregate root (section 3)
with every top-level key of the output contract (section 6). -/
structure AnalysisResult where
  overall_score : ℚ
  ats_score : ℚ
  sections : List (String × SectionScore)
  skills : SkillsOut
  experience : List ExperienceEntry
  education : List EducationEntry
  ai_suggestions : List Suggestion
  analysis : ContentMetrics
deriving DecidableEq, Repr

/-- Modelled from the spec: the error taxonomy of section 7. -/
inductive PipelineError where
  | emptyDocument
  | sectionNotFound
  | unparsableBlock
  | suggestionService
  | configuration
deriving DecidableEq, Repr

/-- Modelled from the spec: the configuration surface the pipeline consumes
(section 6): AI-service enable flag and retry parameters. -/
structure Config where
  aiEnabled : Bool
  maxRetries : Nat
deriving DecidableEq, Repr

/-- Modelled from the spec: the pipeline coordinator states (section 4.8). -/
inductive Stage where
  | received
  | normalizing
  | segmenting
  | extracting
  | scoring
  | suggesting
  | assembled
  | failed
deriving DecidableEq, Repr

end PipelineModel

section Normalizer

/-- Modelled from the spec: helper collapsing whitespace runs into single
spaces inside one line (section 4.1).  The Bool argument records whether the
previous kept character was a space. -/
def collapseRuns : List Char → Bool → List Char
  | [], _ => []
  | c :: rest, prevSpace =>
    if c.isWhitespace then
      if prevSpace then collapseRuns rest true
      else ' ' :: collapseRuns rest true
    else c :: collapseRuns rest false

/-- Modelled from the spec: per-line normalization (section 4.1): whitespace
mapped to plain spaces, runs collapsed, other control characters stripped,
ends trimmed. -/
def normalizeLine (s : String) : String :=
  let printable := (s.data.map (fun c => if c.isWhitespace then ' ' else c)).filter
    (fun c => 32 ≤ c.toNat)
  String.mk (trimChars (collapseRuns printable false))

/-- Modelled from the spec: collapse runs of blank lines into a single blank
line, preserving paragraph boundaries (section 4.1). -/
def collapseBlankLines : List String → Bool → List String
  | [], _ => []
  | l :: rest, prevBlank =>
    if l.isEmpty then
      if prevBlank then collapseBlankLines rest true
      else "" :: collapseBlankLines rest true
    else l :: collapseBlankLines rest false

/-- Modelled from the spec: drop blank lines at both ends of the document. -/
def trimBlankLines (ls : List String) : List String :=
  ((ls.dropWhile String.isEmpty).reverse.dropWhile String.isEmpty).reverse

/-- Modelled from the spec: the Text Normalizer (section 4.1).  Empty or
whitespace-only input yields `EmptyDocumentError`; otherwise whitespace is
collapsed per line, control characters stripped, and paragraph boundaries
(single blank lines) preserved. -/
def normalizeText (raw : String) : Except PipelineError String :=
  if raw.data.all Char.isWhitespace then .error .emptyDocument
  else
    let ls := (strSplit '\n' raw).map normalizeLine
    .ok (String.intercalate "\n" (trimBlankLines (collapseBlankLines ls true)))

end Normalizer

section Segmenter

/-- Modelled from the spec: the controlled heading vocabulary of the Section
Segmenter (section 4.2), mapping recognized heading text to a region name. -/
def headingVocab : List (String × String) :=
  [("experience", "experience"), ("work history", "experience"),
   ("work experience", "experience"), ("education", "education"),
   ("skills", "skills"), ("technical skills", "skills"),
   ("summary", "summary"), ("professional summary", "summary")]

/-- Modelled from the spec: recognize a heading-like line (section 4.2):
case-insensitive match against the controlled vocabulary, tolerating a
trailing colon. -/
def headingOf (line : String) : Option String :=
  let t := trimStr (lowerStr line)
  let t := if strEndsWith t ':' then trimStr (dropLastChar t) else t
  (headingVocab.find? (fun p => p.1 == t)).map Prod.snd

/-- Modelled from the spec: label every line with the region of the nearest
preceding recognized heading; the heading line itself is not region content;
text before the first heading belongs to the implicit header region
(section 4.2). -/
def labelLines : List String → String → List (String × String)
  | [], _ => []
  | l :: rest, cur =>
    match headingOf l with
    | some h => labelLines rest h
    | none => (cur, l) :: labelLines rest cur

/-- Modelled from the spec: the lines assigned to one named region. -/
def regionLines (ls : List String) (region : String) : List String :=
  ((labelLines ls "header").filter (fun p => p.1 == region)).map Prod.snd

end Segmenter

section Extractor

/-- Modelled from the spec: tokenize normalized text into words, keeping
alphanumeric characters plus the plus and hash signs of skill names. -/
def tokenize (text : String) : List String :=
  let words := ((strSplit '\n' text).map (fun l => strSplit ' ' l)).flatten
  (words.map (fun w => String.mk (w.data.filter
    (fun c => c.isAlphanum || c == '+' || c == '#')))).filter
    (fun w => !w.isEmpty)

/-- Modelled from the spec: the curated technical skill dictionary keyed by
category (section 4.3), loaded once and read-only; names are stored
normalized to lowercase. -/
def technicalDict : List (String × SkillCategory) :=
  [("python", .programming_language), ("javascript", .programming_language),
   ("java", .programming_language), ("typescript", .programming_language),
   ("react", .framework), ("flask", .framework), ("django", .framework),
   ("postgresql", .database), ("mongodb", .database), ("mysql", .database),
   ("git", .tool), ("docker", .tool), ("aws", .tool), ("kubernetes", .tool)]

/-- Modelled from the spec: the separate, smaller soft-skill dictionary
(section 4.3). -/
def softSkillDict : List (String × SkillCategory) :=
  [("leadership", .soft_skill), ("communication", .soft_skill),
   ("teamwork", .soft_skill), ("collaboration", .soft_skill)]

/-- Modelled from the spec: derived proficiency from occurrence thresholds
(section 4.3): at least 5 occurrences advanced, at least 3 intermediate,
otherwise beginner. -/
def proficiencyOf (n : Nat) : String :=
  if 5 ≤ n then "advanced" else if 3 ≤ n then "intermediate" else "beginner"

/-- Modelled from the spec: case-insensitive occurrence count of a
(lowercase) dictionary name over the document tokens (section 4.3). -/
def countOccurrences (tokens : List String) (name : String) : Nat :=
  tokens.countP (fun t => lowerStr t == name)

/-- Modelled from the spec: the skill extractor (section 4.3): each
dictionary entry matched case-insensitively over the tokens; a skill is
emitted once per dictionary entry with the accumulated count and the derived
proficiency. -/
def extractSkills (dict : List (String × SkillCategory)) (tokens : List String) :
    List Skill :=
  dict.filterMap (fun entry =>
    let c := countOccurrences tokens entry.1
    if c == 0 then none
    else some { name := entry.1, category := entry.2, occurrence_count := c,
                proficiency := proficiencyOf c })

end Extractor

section ExperienceParsing

/-- Modelled from the spec: month-name abbreviations accepted by the date
parsing of section 4.4. -/
def monthNames : List (String × Nat) :=
  [("jan", 1), ("feb", 2), ("mar", 3), ("apr", 4), ("may", 5), ("jun", 6),
   ("jul", 7), ("aug", 8), ("sep", 9), ("oct", 10), ("nov", 11), ("dec", 12)]

/-- Modelled from the spec: date parsing (section 4.4) accepting the formats
Jan 2020, 01/2020 and 2020, normalized to a year-month (a bare year maps to
January of that year). -/
def parseYearMonth (s : String) : Option YearMonth :=
  let t := trimStr (lowerStr s)
  match strSplit '/' t with
  | [m, y] =>
    match strToNat? m, strToNat? y with
    | some mm, some yy =>
        if 1 ≤ mm ∧ mm ≤ 12 then some ⟨yy, mm⟩ else none
    | _, _ => none
  | _ =>
    match strSplit ' ' t with
    | [mon, y] =>
      match monthNames.find? (fun p => p.1 == strTake mon 3), strToNat? y with
      | some p, some yy => some ⟨yy, p.2⟩
      | _, _ => none
    | [y] =>
      match strToNat? y with
      | some yy => if 1000 ≤ yy then some ⟨yy, 1⟩ else none
      | _ => none
    | _ => none

/-- Modelled from the spec: `duration_months` is the number of months between
start and end, floored at 0 (section 4.4).  The counting convention is the
inclusive one, fixed by the documented response example in the architecture
documentation where start 2020-01 and end 2023-12 give 48. -/
def monthsBetween (s e : YearMonth) : Nat :=
  let si := s.year * 12 + s.month
  let ei := e.year * 12 + e.month
  if si ≤ ei then ei - si + 1 else 0

/-- Modelled from the spec: assemble an ExperienceEntry (sections 3 and 4.4).
`claimedDuration` is a duration figure the source text itself may state; the
invariant of section 3 requires `duration_months` to be recomputed from the
dates (against `now` for an open-ended role), never trusted from the text,
so the claimed figure is deliberately ignored. -/
def buildExperienceEntry (title company : String) (s : YearMonth)
    (e : Option YearMonth) (claimedDuration : Option Nat) (now : YearMonth)
    (resp : List String) : ExperienceEntry :=
  let _ := claimedDuration
  { title := title, company := company, start_date := s, end_date := e,
    duration_months := monthsBetween s (e.getD now),
    responsibilities := resp }

/-- Modelled from the spec: bullet-marker recognition (sections 4.4 and
4.5). -/
def isBulletLine (l : String) : Bool :=
  strStartsWith l "- " || strStartsWith l "* " || strStartsWith l "• "

/-- Modelled from the spec: strip the bullet marker from a bullet line. -/
def stripBullet (l : String) : String :=
  if isBulletLine l then trimStr (strDrop l 2) else l

/-- Modelled from the spec: split a candidate date-range line at a lone dash
word. -/
def splitAtDash : List String → Option (List String × List String)
  | [] => none
  | w :: rest =>
    if w == "-" then some ([], rest)
    else
      match splitAtDash rest with
      | some p => some (w :: p.1, p.2)
      | none => none

/-- Modelled from the spec: a date-range line anchoring a job block
(section 4.4): two dates separated by a dash, the second possibly the word
present for an open-ended role. -/
def splitDateRange (l : String) : Option (YearMonth × Option YearMonth) :=
  match splitAtDash ((strSplit ' ' l).filter (fun w => !w.isEmpty)) with
  | some (a, b) =>
    match parseYearMonth (String.intercalate " " a) with
    | some s =>
        let bs := String.intercalate " " b
        if lowerStr (trimStr bs) == "present" then some (s, none)
        else (parseYearMonth bs).map (fun e => (s, some e))
    | none => none
  | none => none

/-- Modelled from the spec: the tie-break of section 4.4: a line holding
Title, Company is split on the first comma, assigned left to right. -/
def splitTitleCompany (l : String) : String × String :=
  match splitChar ',' l.data with
  | [a] => (String.mk a, "")
  | a :: rest =>
      (String.mk a,
       trimStr (String.intercalate "," (rest.map String.mk)))
  | [] => ("", "")

/-- Modelled from the spec: collect the bullet-prefixed responsibility lines
that follow a date line (section 4.4); returns them with the remaining
lines. -/
def collectBullets : List String → List String × List String
  | [] => ([], [])
  | l :: rest =>
    if isBulletLine l then
      let out := collectBullets rest
      (stripBullet l :: out.1, out.2)
    else ([], l :: rest)

/-- Modelled from the spec: the Experience Parser (section 4.4), walking the
region lines with a fuel bound (the region length) for totality.  The two
Option arguments hold the pending title and company candidate lines; a
block without a usable title line is dropped with a logged issue rather than
aborting. -/
def parseBlocks (now : YearMonth) :
    Nat → List String → Option String → Option String →
    List ExperienceEntry × List String
  | 0, _, _, _ => ([], [])
  | _ + 1, [], _, _ => ([], [])
  | fuel + 1, l :: rest, t, c =>
    match splitDateRange l with
    | some (s, e) =>
      let bulletsRest := collectBullets rest
      let tc :=
        match t, c with
        | some tt, some cc => (tt, cc)
        | some tt, none => splitTitleCompany tt
        | none, _ => ("", "")
      let tail := parseBlocks now fuel bulletsRest.2 none none
      if tc.1.isEmpty then
        (tail.1, "dropped unparsable experience block" :: tail.2)
      else
        (buildExperienceEntry tc.1 tc.2 s e none now bulletsRest.1 :: tail.1,
         tail.2)
    | none =>
      if l.isEmpty then parseBlocks now fuel rest none none
      else
        match t with
        | none => parseBlocks now fuel rest (some l) none
        | some tt => parseBlocks now fuel rest (some tt) (some l)

/-- Modelled from the spec: parse the experience region into ordered entries
plus section-local issues (section 4.4). -/
def parseExperienceRegion (ls : List String) (now : YearMonth) :
    List ExperienceEntry × List String :=
  parseBlocks now (ls.length + 1) ls none none

/-- Modelled from the spec: degree keywords recognized by education
extraction. -/
def degreeKeywords : List String :=
  ["bachelor", "master", "phd", "b.s.", "m.s.", "bs", "ms", "mba"]

/-- Modelled from the spec: extract education entries from the education
region lines (sections 2 and 3): lines mentioning a degree keyword become
entries with a year when one parses from the line tokens. -/
def parseEducationRegion (ls : List String) : List EducationEntry :=
  (ls.filter (fun l =>
    degreeKeywords.any (fun k => (strSplit ' ' (lowerStr l)).contains k))).map
    (fun l =>
      let yr := ((strSplit ' ' l).filterMap strToNat?).find?
        (fun n => 1900 ≤ n ∧ n ≤ 2100)
      { degree := l, field := "", institution := "", year := yr })

end ExperienceParsing

section QualityAnalyzer

/-- Modelled from the spec: the curated action-verb list consumed by the
Content Quality Analyzer (section 4.5). -/
def actionVerbs : List String :=
  ["led", "managed", "developed", "created", "improved", "designed",
   "implemented", "built", "architected", "increased", "reduced", "launched",
   "delivered", "optimized"]

/-- Modelled from the spec: the first word of a line, lowercased. -/
def firstWord (l : String) : Option String :=
  ((strSplit ' ' (trimStr l)).head?).map lowerStr

/-- Modelled from the spec: bullet-like units (section 4.5): lines starting
with a bullet marker or with an action verb. -/
def bulletUnits (text : String) : List String :=
  ((strSplit '\n' text).filter (fun l =>
    isBulletLine l ||
      (match firstWord l with
       | some w => actionVerbs.contains w
       | none => false))).map stripBullet

/-- Modelled from the spec: a bullet counts as quantified when it contains a
numeric token, a percent sign or a currency sign (section 4.5). -/
def hasNumericToken (l : String) : Bool :=
  l.data.any (fun c => c.isDigit || c == '%' || c == '$')

/-- Modelled from the spec: a ratio with an empty denominator mapped to 0. -/
def ratioOf (num den : Nat) : ℚ :=
  if den = 0 then 0 else (num : ℚ) / (den : ℚ)

/-- Modelled from the spec: the Content Quality Analyzer (section 4.5); all
four metrics are pure functions of the normalized text and the static
dictionaries. -/
def computeMetrics (text : String) : ContentMetrics :=
  let bullets := bulletUnits text
  let n := bullets.length
  let verbCount := bullets.countP (fun b =>
    match firstWord b with
    | some w => actionVerbs.contains w
    | none => false)
  let quantCount := bullets.countP hasNumericToken
  let words := tokenize text
  let kwCount := technicalDict.foldl
    (fun acc p => acc + countOccurrences words p.1) 0
  { action_verb_usage := ratioOf verbCount n,
    quantification_rate := ratioOf quantCount n,
    keyword_density := ratioOf kwCount words.length,
    avg_bullet_length := ratioOf (bullets.foldl
      (fun acc b => acc + ((strSplit ' ' b).filter (fun w => !w.isEmpty)).length) 0) n }

end QualityAnalyzer

section ScoringEngine

/-- Modelled from the spec: clamp a score into the interval from 0 to 100
(section 4.6). -/
def clampScore (q : ℚ) : ℚ := max 0 (min 100 q)

/-- Modelled from the spec: contact presence detection over the header
tokens. -/
def hasEmailToken (text : String) : Bool :=
  (strSplit ' ' text).any (fun t => t.data.contains '@' && t.data.contains '.')

/-- Modelled from the spec: the contact section score (section 4.6),
penalizing a missing email. -/
def contactSection (text : String) : SectionScore :=
  if hasEmailToken (String.intercalate " " (strSplit '\n' text)) then
    { score := 90, issues := [] }
  else
    { score := 40, issues := ["no email address found"] }

/-- Modelled from the spec: the experience section score (section 4.6),
rewarding entry count and depth. -/
def experienceSection (entries : List ExperienceEntry) (issues : List String) :
    SectionScore :=
  { score := clampScore ((entries.length : ℚ) * 30 +
      (if entries.any (fun e => !e.responsibilities.isEmpty) then 10 else 0)),
    issues := issues }

/-- Modelled from the spec: the skills section score (section 4.6), rewarding
diversity across categories. -/
def skillsSection (technical soft : List Skill) : SectionScore :=
  let cats := (technical.map Skill.category).dedup
  { score := clampScore ((cats.length : ℚ) * 20 +
      ((technical.length + soft.length : ℕ) : ℚ) * 5),
    issues := if technical.isEmpty then ["no technical skills found"] else [] }

/-- Modelled from the spec: the education section score (section 4.6),
rewarding presence of degree and year. -/
def educationSection (entries : List EducationEntry) : SectionScore :=
  if entries.isEmpty then { score := 30, issues := ["no education entries found"] }
  else
    { score := clampScore (60 + (if entries.any (fun e => e.year.isSome) then 20 else 0) +
        (entries.length : ℚ) * 10),
      issues := [] }

/-- Modelled from the spec: the ATS score (section 4.6), from keyword density
against a target plus section-header compliance, clamped. -/
def atsScore (kwDensity : ℚ) (hasHeadings : Bool) : ℚ :=
  clampScore ((min 1 (kwDensity * 10)) * 70 + (if hasHeadings then 30 else 0))

/-- Modelled from the spec: the content quality component of the overall
score, from the stylistic metrics. -/
def qualityScore (m : ContentMetrics) : ℚ :=
  clampScore ((m.action_verb_usage + m.quantification_rate) * 50)

/-- Modelled from the spec: `overall_score` as the fixed weighted sum of
section 4.6 in the fixed summation order skills, experience, quality, ATS;
weights 30, 25, 25 and 20 percent; clamped. -/
def overallScore (skills experience quality ats : ℚ) : ℚ :=
  clampScore (skills * 30 / 100 + experience * 25 / 100 +
    quality * 25 / 100 + ats * 20 / 100)

end ScoringEngine

section Orchestrator

/-- Modelled from the spec: one call to the external suggestion service
(section 4.7): a success carries raw suggestions, a transient failure is a
timeout, 5xx or rate-limit signal, a fatal failure is an auth error or a
malformed request. -/
inductive ServiceOutcome where
  | success (raws : List RawSuggestion)
  | transientFailure
  | fatalFailure
deriving DecidableEq, Repr

/-- Modelled from the spec: parse the priority enumeration of a raw
suggestion. -/
def parsePriority (s : String) : Option Priority :=
  if s == "high" then some .high
  else if s == "medium" then some .medium
  else if s == "low" then some .low
  else none

/-- Modelled from the spec: validation of a service suggestion (section 4.7):
required fields present and priority in the enumeration; invalid entries are
dropped. -/
def validateSuggestion (r : RawSuggestion) : Option Suggestion :=
  match parsePriority r.priority with
  | none => none
  | some p =>
    if r.text.isEmpty || r.category.isEmpty then none
    else some { category := r.category, priority := p, text := r.text,
                rationale := r.rationale, examples := r.examples }

/-- A suggestion is well-formed when its required text and category fields
are non-empty (its priority is in the enumeration by type). -/
def wellFormedSuggestion (s : Suggestion) : Bool :=
  !s.text.isEmpty && !s.category.isEmpty

/-- Modelled from the spec: the suggestion ordering of section 3: sorted by
priority high to low, ties keeping insertion order. -/
def sortByPriorityClass (l : List Suggestion) : List Suggestion :=
  l.filter (fun s => decide (s.priority = Priority.high)) ++
  l.filter (fun s => decide (s.priority = Priority.medium)) ++
  l.filter (fun s => decide (s.priority = Priority.low))

/-- Modelled from the spec: the fixed quantification fallback suggestion
(section 4.7: quantification_rate below one half emits a fixed suggestion). -/
def quantSuggestion : Suggestion :=
  { category := "content", priority := .high,
    text := "Add quantifiable metrics to your achievements",
    rationale := some "Numbers make impact concrete",
    examples := ["Improved performance by 40 percent"] }

/-- Modelled from the spec: the fixed action-verb fallback suggestion. -/
def verbSuggestion : Suggestion :=
  { category := "content", priority := .medium,
    text := "Start bullet points with strong action verbs",
    rationale := none, examples := [] }

/-- Modelled from the spec: the fixed missing-skill fallback suggestion. -/
def skillGapSuggestion : Suggestion :=
  { category := "skills", priority := .medium,
    text := "Highlight additional relevant skills",
    rationale := none, examples := [] }

/-- Modelled from the spec: the always-on baseline fallback suggestion,
useful on its own (section 7). -/
def baselineSuggestion : Suggestion :=
  { category := "formatting", priority := .low,
    text := "Use consistent date formatting throughout",
    rationale := none, examples := [] }

/-- Modelled from the spec: the deterministic local fallback rules
(section 4.7), an explicit ordered rule list: each rule pairs a firing
condition on the weak ContentMetrics and missing-skill list with a fixed
suggestion.  The final baseline rule always fires, so the fallback list is
never empty, as section 4.7 guarantees for the caller. -/
def fallbackRules (m : ContentMetrics) (missingSkills : List String) :
    List (Bool × Suggestion) :=
  [(decide (m.quantification_rate < (1 : ℚ) / 2), quantSuggestion),
   (decide (m.action_verb_usage < (1 : ℚ) / 2), verbSuggestion),
   (!missingSkills.isEmpty, skillGapSuggestion),
   (true, baselineSuggestion)]

/-- Modelled from the spec: the deterministic local fallback generator
(section 4.7): the suggestions of the rules whose condition fires, in rule
order. -/
def fallbackSuggestions (m : ContentMetrics) (missingSkills : List String) :
    List Suggestion :=
  ((fallbackRules m missingSkills).filter Prod.fst).map Prod.snd

/-- Modelled from the spec: the retry loop of section 4.7.  The service is a
function from the attempt index to its outcome; the loop makes the initial
attempt and up to `remaining` retries on transient failures, stopping
immediately on success or on a non-retryable failure.  Returns the payload
(none when no attempt succeeded) and the number of retries made. -/
def callWithRetries (svc : Nat → ServiceOutcome) :
    Nat → Nat → Option (List RawSuggestion) × Nat
  | i, remaining =>
    match svc i with
    | .success rs => (some rs, 0)
    | .fatalFailure => (none, 0)
    | .transientFailure =>
      match remaining with
      | 0 => (none, 0)
      | r + 1 =>
        let out := callWithRetries svc (i + 1) r
        (out.1, out.2 + 1)

/-- The outcome of one orchestrator run: the final suggestion list, the
number of retries made against the external service, and whether the local
fallback supplied the suggestions. -/
structure OrchestratorOutcome where
  suggestions : List Suggestion
  retries : Nat
  usedFallback : Bool
deriving DecidableEq, Repr

/-- Modelled from the spec: the Suggestion Orchestrator (section 4.7).  When
the service is disabled by configuration, or all retries are exhausted, or
validation leaves nothing usable, the deterministic local fallback supplies
the suggestions; service results are validated, invalid entries dropped, and
the list is sorted by priority. -/
def orchestrate (cfg : Config) (svc : Nat → ServiceOutcome)
    (m : ContentMetrics) (missingSkills : List String) : OrchestratorOutcome :=
  if cfg.aiEnabled then
    match callWithRetries svc 0 cfg.maxRetries with
    | (some raws, k) =>
      let valid := raws.filterMap validateSuggestion
      if valid.isEmpty then
        { suggestions := sortByPriorityClass (fallbackSuggestions m missingSkills),
          retries := k, usedFallback := true }
      else
        { suggestions := sortByPriorityClass valid, retries := k,
          usedFallback := false }
    | (none, k) =>
      { suggestions := sortByPriorityClass (fallbackSuggestions m missingSkills),
        retries := k, usedFallback := true }
  else
    { suggestions := sortByPriorityClass (fallbackSuggestions m missingSkills),
      retries := 0, usedFallback := true }

end Orchestrator

section Coordinator

/-- Modelled from the spec: target keywords whose absence feeds the
missing-skill list consumed by the fallback generator (section 4.7). -/
def targetSkillNames : List String := ["python", "react", "docker", "aws"]

/-- Modelled from the spec: the skills the resume does not mention. -/
def missingSkills (technical : List Skill) : List String :=
  targetSkillNames.filter (fun t => !(technical.any (fun s => s.name == t)))

/-- Modelled from the spec: the Pipeline Coordinator (section 4.8), running
normalization, segmentation, extraction, scoring and suggestion in order and
assembling the AnalysisResult.  Returns the result (or the fatal error) with
the list of coordinator states traversed; `Failed` is entered only on the
empty-document error out of `Normalizing`, every later stage degrades
gracefully into issues entries instead of aborting. -/
def runPipeline (raw : String) (cfg : Config) (svc : Nat → ServiceOutcome)
    (now : YearMonth) : Except PipelineError AnalysisResult × List Stage :=
  match normalizeText raw with
  | .error e => (.error e, [.received, .normalizing, .failed])
  | .ok text =>
    let ls := strSplit '\n' text
    let hasHeadings := ls.any (fun l => (headingOf l).isSome)
    let segIssues := if hasHeadings then []
      else ["no section headings recognized, degraded segmentation"]
    let expLines := if hasHeadings then regionLines ls "experience" else ls
    let eduLines := if hasHeadings then regionLines ls "education" else ls
    let tokens := tokenize text
    let technical := extractSkills technicalDict tokens
    let soft := extractSkills softSkillDict tokens
    let parsed := parseExperienceRegion expLines now
    let education := parseEducationRegion eduLines
    let metrics := computeMetrics text
    let contact := contactSection text
    let expSec := experienceSection parsed.1 (segIssues ++ parsed.2)
    let skillSec := skillsSection technical soft
    let eduSec := educationSection education
    let ats := atsScore metrics.keyword_density hasHeadings
    let overall := overallScore skillSec.score expSec.score
      (qualityScore metrics) ats
    let orc := orchestrate cfg svc metrics (missingSkills technical)
    (.ok { overall_score := overall, ats_score := ats,
           sections := [("contact", contact), ("experience", expSec),
                        ("skills", skillSec), ("education", eduSec)],
           skills := { technical := technical, soft := soft },
           experience := parsed.1, education := education,
           ai_suggestions := orc.suggestions, analysis := metrics },
     [.received, .normalizing, .segmenting, .extracting, .scoring,
      .suggesting, .assembled])

end Coordinator

section ClaimC6

/-- Claim C6: the score-to-label mapping labels a score Excellent exactly
when the score is at least 90; every score below 90 gets a strictly lower
label: Good for 75 to 89, Fair for 60 to 74, Needs Work below 60. -/
theorem score_label_thresholds (s : ℚ) :
    ((getScoreLabel s).label = "Excellent" ↔ 90 ≤ s) ∧
    (75 ≤ s → s < 90 → (getScoreLabel s).label = "Good") ∧
    (60 ≤ s → s < 75 → (getScoreLabel s).label = "Fair") ∧
    (s < 60 → (getScoreLabel s).label = "Needs Work") := by
  unfold getScoreLabel
  by_cases h90 : s ≥ 90
  · rw [if_pos h90]
    exact ⟨⟨fun _ => h90, fun _ => rfl⟩,
      fun _ h => absurd h90 (not_le.mpr h),
      fun _ h => absurd h90 (not_le.mpr (lt_of_lt_of_le h (by norm_num))),
      fun h => absurd h90 (not_le.mpr (lt_of_lt_of_le h (by norm_num)))⟩
  · rw [if_neg h90]
    by_cases h75 : s ≥ 75
    · rw [if_pos h75]
      exact ⟨⟨fun hlab => absurd hlab (by decide), fun hge => absurd hge h90⟩,
        fun _ _ => rfl,
        fun _ h => absurd h75 (not_le.mpr h),
        fun h => absurd h75 (not_le.mpr (lt_of_lt_of_le h (by norm_num)))⟩
    · rw [if_neg h75]
      by_cases h60 : s ≥ 60
      · rw [if_pos h60]
        exact ⟨⟨fun hlab => absurd hlab (by decide), fun hge => absurd hge h90⟩,
          fun hge _ => absurd hge h75,
          fun _ _ => rfl,
          fun h => absurd h60 (not_le.mpr h)⟩
      · rw [if_neg h60]
        exact ⟨⟨fun hlab => absurd hlab (by decide), fun hge => absurd hge h90⟩,
          fun hge _ => absurd hge h75,
          fun hge _ => absurd hge h60,
          fun _ => rfl⟩

/-- Witness for claim C6 at the concrete scores 95, 80, 65 and 30. -/
theorem score_label_thresholds_witness :
    (getScoreLabel 95).label = "Excellent" ∧ (getScoreLabel 80).label = "Good" ∧
    (getScoreLabel 65).label = "Fair" ∧ (getScoreLabel 30).label = "Needs Work" :=
  ⟨(score_label_thresholds 95).1.mpr (by norm_num),
   (score_label_thresholds 80).2.1 (by norm_num) (by norm_num),
   (score_label_thresholds 65).2.2.1 (by norm_num) (by norm_num),
   (score_label_thresholds 30).2.2.2 (by norm_num)⟩

end ClaimC6

section ClaimC9

/-- Helper: a JavaScript default chain whose inner default is non-empty
collapses to the inner chain. -/
theorem jsOr_nested (em : Option String) (d1 d2 : String)
    (h : d1.isEmpty = false) :
    jsOr (some (jsOr em d1)) d2 = jsOr em d1 := by
  cases em with
  | none => simp [jsOr, h]
  | some str =>
    by_cases hs : str.isEmpty
    · simp [jsOr, hs, h]
    · simp [jsOr, hs]

/-- Claim C9: analyzeResume returns the response data exactly when the reply
has success true; in every other case it throws, with the message taken from
the server error message when present and a fixed per-case fallback message
otherwise. -/
theorem analyzeResume_contract {α : Type} (r : ServerReply α) :
    analyzeResume r = analyzeResumeClaim r ∧
    ((∃ d, analyzeResume r = Except.ok d) ↔
      ∃ d em, r = ServerReply.ok true d em) := by
  cases r with
  | ok success payload em =>
    cases success with
    | true =>
      exact ⟨rfl, fun _ => ⟨payload, em, rfl⟩, fun _ => ⟨payload, rfl⟩⟩
    | false =>
      refine ⟨congrArg Except.error (jsOr_nested em _ _ rfl), ?_, ?_⟩
      · rintro ⟨d, hd⟩
        exact Except.noConfusion hd
      · rintro ⟨d, em2, hr⟩
        simp at hr
  | httpError em =>
    refine ⟨rfl, ?_, ?_⟩
    · rintro ⟨d, hd⟩
      exact Except.noConfusion hd
    · rintro ⟨d, em2, hr⟩
      exact ServerReply.noConfusion hr
  | noResponse =>
    refine ⟨rfl, ?_, ?_⟩
    · rintro ⟨d, hd⟩
      exact Except.noConfusion hd
    · rintro ⟨d, em2, hr⟩
      exact ServerReply.noConfusion hr
  | setupFailure m =>
    refine ⟨rfl, ?_, ?_⟩
    · rintro ⟨d, hd⟩
      exact Except.noConfusion hd
    · rintro ⟨d, em2, hr⟩
      exact ServerReply.noConfusion hr

/-- Witness for claim C9 at concrete replies. -/
theorem analyzeResume_contract_witness :
    analyzeResume (ServerReply.ok true (42 : Nat) none) = Except.ok 42 ∧
    analyzeResume (ServerReply.ok false (0 : Nat) none) =
      Except.error "Analysis failed" ∧
    analyzeResume (ServerReply.httpError (some "boom") : ServerReply Nat) =
      Except.error "boom" ∧
    analyzeResume (ServerReply.noResponse : ServerReply Nat) =
      Except.error "No response from server. Please check your connection." :=
  ⟨by
    rcases (analyzeResume_contract (ServerReply.ok true (42 : Nat) none)).2.mpr
      ⟨42, none, rfl⟩ with ⟨d, hd⟩
    exact hd.trans (by cases hd; rfl),
   by rw [(analyzeResume_contract (ServerReply.ok false (0 : Nat) none)).1]; rfl,
   by rw [(analyzeResume_contract (ServerReply.httpError (some "boom"))).1]; rfl,
   by rw [(analyzeResume_contract (ServerReply.noResponse : ServerReply Nat)).1]; rfl⟩

end ClaimC9

section ClaimC10

/-- Claim C10: the dashboard renders at most the first 20 technical skills,
at most the first 10 soft skills and at most the first 3 responsibility
bullets per experience entry, each in the order received. -/
theorem dashboard_truncation (d : DashData) (e : DashExperience) :
    (renderedTechnical d).length ≤ 20 ∧
    (∀ i (h1 : i < (renderedTechnical d).length)
        (h2 : i < d.skills.technical.length),
      (renderedTechnical d).get ⟨i, h1⟩ = d.skills.technical.get ⟨i, h2⟩) ∧
    (renderedSoft d).length ≤ 10 ∧
    (∀ i (h1 : i < (renderedSoft d).length) (h2 : i < d.skills.soft.length),
      (renderedSoft d).get ⟨i, h1⟩ = d.skills.soft.get ⟨i, h2⟩) ∧
    (renderedResponsibilities e).length ≤ 3 ∧
    (∀ i (h1 : i < (renderedResponsibilities e).length)
        (h2 : i < e.responsibilities.length),
      (renderedResponsibilities e).get ⟨i, h1⟩ =
        e.responsibilities.get ⟨i, h2⟩) := by
  refine ⟨?_, ?_, ?_, ?_, ?_, ?_⟩
  · rw [renderedTechnical, List.length_take]
    omega
  · intro i h1 h2
    simp only [renderedTechnical, List.get_eq_getElem]
    exact List.getElem_take _
  · rw [renderedSoft, List.length_take]
    omega
  · intro i h1 h2
    simp only [renderedSoft, List.get_eq_getElem]
    exact List.getElem_take _
  · rw [renderedResponsibilities, List.length_take]
    omega
  · intro i h1 h2
    simp only [renderedResponsibilities, List.get_eq_getElem]
    exact List.getElem_take _

/-- Witness for claim C10 at a concrete payload. -/
theorem dashboard_truncation_witness :
    (renderedTechnical ⟨⟨[⟨"python", 3⟩], [⟨"leadership", 2⟩]⟩, []⟩).length ≤ 20 ∧
    (renderedResponsibilities ⟨"t", "c", ["a", "b", "c", "d"]⟩).length ≤ 3 ∧
    (renderedResponsibilities ⟨"t", "c", ["a", "b", "c", "d"]⟩).get
      ⟨0, by decide⟩ = "a" := by
  refine ⟨(dashboard_truncation ⟨⟨[⟨"python", 3⟩], [⟨"leadership", 2⟩]⟩, []⟩
      ⟨"t", "c", ["a", "b", "c", "d"]⟩).1, ?_, ?_⟩
  · exact (dashboard_truncation ⟨⟨[], []⟩, []⟩ ⟨"t", "c", ["a", "b", "c", "d"]⟩).2.2.2.2.1
  · rw [(dashboard_truncation ⟨⟨[], []⟩, []⟩
      ⟨"t", "c", ["a", "b", "c", "d"]⟩).2.2.2.2.2 0 (by decide) (by decide)]
    rfl

end ClaimC10

section ClaimC5

/-- Claim C5: when both dates are known, `duration_months` is recomputed
from the two dates and is independent of any duration figure the source text
claims; it is floored at 0; and under the fixed inclusive month-counting
convention the entry from 2020-01 to 2023-12 has `duration_months` 48,
which lies in the allowed set of 47 or 48, the same value on every run. -/
theorem duration_months_recomputed (title company : String) (s ym now : YearMonth)
    (c1 c2 : Option Nat) (resp : List String) :
    (buildExperienceEntry title company s (some ym) c1 now resp).duration_months
      = monthsBetween s ym ∧
    buildExperienceEntry title company s (some ym) c1 now resp
      = buildExperienceEntry title company s (some ym) c2 now resp ∧
    (ym.year * 12 + ym.month < s.year * 12 + s.month →
      (buildExperienceEntry title company s (some ym) c1 now resp).duration_months
        = 0) ∧
    monthsBetween ⟨2020, 1⟩ ⟨2023, 12⟩ = 48 ∧
    (monthsBetween ⟨2020, 1⟩ ⟨2023, 12⟩ = 47 ∨
      monthsBetween ⟨2020, 1⟩ ⟨2023, 12⟩ = 48) := by
  refine ⟨rfl, rfl, ?_, by decide, Or.inr (by decide)⟩
  intro h
  show monthsBetween s ym = 0
  unfold monthsBetween
  rw [if_neg]
  omega

/-- Witness for claim C5: a role listed with an end date earlier than its
start date gets duration 0, whatever duration the text claimed. -/
theorem duration_months_recomputed_witness :
    (buildExperienceEntry "Engineer" "Acme" ⟨2024, 5⟩ (some ⟨2020, 1⟩)
        (some 99) ⟨2024, 6⟩ []).duration_months = 0 :=
  (duration_months_recomputed "Engineer" "Acme" ⟨2024, 5⟩ ⟨2020, 1⟩ ⟨2024, 6⟩
    (some 99) none []).2.2.1 (by norm_num)

end ClaimC5

section ClaimC8

/-- Helper: occurrence counting is invariant under lowercasing the tokens. -/
theorem countOccurrences_map_lower (tokens : List String) (name : String) :
    countOccurrences (tokens.map lowerStr) name
      = countOccurrences tokens name := by
  unfold countOccurrences
  rw [List.countP_map]
  apply List.countP_congr
  intro t _
  show (lowerStr (lowerStr t) == name) = true ↔ (lowerStr t == name) = true
  rw [lowerStr_idem]

/-- Helper: every skill the extractor emits takes its name from its
dictionary entry, so the emitted names form a sublist of the dictionary
names. -/
theorem extractSkills_name_sublist (dict : List (String × SkillCategory))
    (tokens : List String) :
    ((extractSkills dict tokens).map Skill.name).Sublist (dict.map Prod.fst) := by
  induction dict with
  | nil => simp [extractSkills]
  | cons e rest ih =>
    unfold extractSkills at ih ⊢
    rw [List.filterMap_cons]
    by_cases hc : (countOccurrences tokens e.1 == 0) = true
    · rw [if_pos hc]
      exact ih.trans (List.sublist_cons_self _ _)
    · rw [if_neg hc]
      exact List.Sublist.cons₂ _ ih

/-- Claim C8: skill extraction is invariant under letter-case variation of
the tokens, each emitted skill carries the combined occurrence count of all
case variants of its normalized lowercase name, counts are positive, and
emitted names are unique whenever the dictionary names are. -/
theorem skill_extraction_case_invariant (dict : List (String × SkillCategory))
    (tokens : List String) :
    extractSkills dict (tokens.map lowerStr) = extractSkills dict tokens ∧
    (∀ s ∈ extractSkills dict tokens,
      s.occurrence_count = tokens.countP (fun t => lowerStr t == s.name) ∧
        0 < s.occurrence_count) ∧
    ((dict.map Prod.fst).Nodup →
      ((extractSkills dict tokens).map Skill.name).Nodup) := by
  refine ⟨?_, ?_, ?_⟩
  · unfold extractSkills
    congr 1
    funext entry
    rw [countOccurrences_map_lower]
  · intro s hs
    rcases List.mem_filterMap.mp hs with ⟨entry, _, he⟩
    by_cases hc : (countOccurrences tokens entry.1 == 0) = true
    · rw [if_pos hc] at he
      exact Option.noConfusion he
    · rw [if_neg hc] at he
      injection he with he
      subst he
      simp only [beq_iff_eq] at hc
      exact ⟨rfl, Nat.pos_of_ne_zero hc⟩
  · intro hn
    exact (extractSkills_name_sublist dict tokens).nodup hn

/-- Witness for claim C8: the three case variants PYTHON, Python, python
collapse into the single entry python with combined count 3. -/
theorem skill_extraction_case_invariant_witness :
    extractSkills [("python", SkillCategory.programming_language)]
        (["PYTHON", "Python", "python"].map lowerStr)
      = extractSkills [("python", SkillCategory.programming_language)]
        ["PYTHON", "Python", "python"] ∧
    ((extractSkills [("python", SkillCategory.programming_language)]
        ["PYTHON", "Python", "python"]).map Skill.name).Nodup ∧
    extractSkills [("python", SkillCategory.programming_language)]
        ["PYTHON", "Python", "python"]
      = [{ name := "python", category := SkillCategory.programming_language,
           occurrence_count := 3, proficiency := "intermediate" }] :=
  ⟨(skill_extraction_case_invariant
      [("python", SkillCategory.programming_language)]
      ["PYTHON", "Python", "python"]).1,
   (skill_extraction_case_invariant
      [("python", SkillCategory.programming_language)]
      ["PYTHON", "Python", "python"]).2.2 (by decide),
   by decide⟩

end ClaimC8

section OrchestratorLemmas

/-- Helper: the priority sort has exactly the members of its input. -/
theorem mem_sortByPriorityClass {s : Suggestion} {l : List Suggestion} :
    s ∈ sortByPriorityClass l ↔ s ∈ l := by
  unfold sortByPriorityClass
  simp only [List.mem_append, List.mem_filter, decide_eq_true_eq]
  constructor
  · rintro ((⟨h, _⟩ | ⟨h, _⟩) | ⟨h, _⟩) <;> exact h
  · intro h
    cases hp : s.priority with
    | high => exact Or.inl (Or.inl ⟨h, rfl⟩)
    | medium => exact Or.inl (Or.inr ⟨h, rfl⟩)
    | low => exact Or.inr ⟨h, rfl⟩

/-- Helper: the priority sort of a non-empty list is non-empty. -/
theorem sortByPriorityClass_ne_nil {l : List Suggestion} (h : l ≠ []) :
    sortByPriorityClass l ≠ [] := by
  obtain ⟨s, hs⟩ := List.exists_mem_of_ne_nil l h
  exact List.ne_nil_of_mem (mem_sortByPriorityClass.mpr hs)

/-- Helper: the always-on baseline rule puts its suggestion into every
fallback list. -/
theorem baseline_mem_fallback (m : ContentMetrics) (miss : List String) :
    baselineSuggestion ∈ fallbackSuggestions m miss := by
  unfold fallbackSuggestions
  refine List.mem_map.mpr ⟨(true, baselineSuggestion), ?_, rfl⟩
  refine List.mem_filter.mpr ⟨?_, rfl⟩
  unfold fallbackRules
  simp

/-- Helper: the fallback list is never empty. -/
theorem fallback_ne_nil (m : ContentMetrics) (miss : List String) :
    fallbackSuggestions m miss ≠ [] :=
  List.ne_nil_of_mem (baseline_mem_fallback m miss)

/-- Helper: every fallback suggestion is well-formed. -/
theorem fallback_wellFormed {m : ContentMetrics} {miss : List String}
    {s : Suggestion} (h : s ∈ fallbackSuggestions m miss) :
    wellFormedSuggestion s = true := by
  unfold fallbackSuggestions at h
  rcases List.mem_map.mp h with ⟨p, hp, hps⟩
  have hp2 := (List.mem_filter.mp hp).1
  unfold fallbackRules at hp2
  subst hps
  simp only [List.mem_cons, List.not_mem_nil, or_false] at hp2
  rcases hp2 with h1 | h1 | h1 | h1
  · rw [h1]
    show wellFormedSuggestion quantSuggestion = true
    decide
  · rw [h1]
    show wellFormedSuggestion verbSuggestion = true
    decide
  · rw [h1]
    show wellFormedSuggestion skillGapSuggestion = true
    decide
  · rw [h1]
    show wellFormedSuggestion baselineSuggestion = true
    decide

/-- Helper: every suggestion surviving validation is well-formed. -/
theorem validate_wellFormed {r : RawSuggestion} {s : Suggestion}
    (h : validateSuggestion r = some s) : wellFormedSuggestion s = true := by
  unfold validateSuggestion at h
  cases hp : parsePriority r.priority with
  | none =>
    simp only [hp] at h
    exact Option.noConfusion h
  | some p =>
    simp only [hp] at h
    by_cases hc : (r.text.isEmpty || r.category.isEmpty) = true
    · rw [if_pos hc] at h
      exact Option.noConfusion h
    · rw [if_neg hc] at h
      injection h with h
      subst h
      simp only [Bool.or_eq_true, not_or, Bool.not_eq_true] at hc
      unfold wellFormedSuggestion
      simp [hc.1, hc.2]

/-- Helper: a service failing transiently on every attempt exhausts all
retries and yields no payload. -/
theorem callWithRetries_all_transient (svc : Nat → ServiceOutcome)
    (hall : ∀ i, svc i = ServiceOutcome.transientFailure) :
    ∀ r i, callWithRetries svc i r = (none, r) := by
  intro r
  induction r with
  | zero =>
    intro i
    rw [callWithRetries, hall i]
  | succ n ih =>
    intro i
    rw [callWithRetries, hall i]
    simp only []
    rw [ih (i + 1)]

/-- Helper: with the AI service disabled the orchestrator ignores the
service entirely and returns the sorted fallback suggestions. -/
theorem orchestrate_disabled (cfg : Config) (h : cfg.aiEnabled = false)
    (svc : Nat → ServiceOutcome) (m : ContentMetrics) (miss : List String) :
    orchestrate cfg svc m miss =
      { suggestions := sortByPriorityClass (fallbackSuggestions m miss),
        retries := 0, usedFallback := true } := by
  unfold orchestrate
  rw [h]
  simp

end OrchestratorLemmas

section ClaimC1

/-- Claim C1: for every configuration and every service behavior the
orchestrator returns a non-empty list of well-formed suggestions, and when
the AI service is disabled or every attempt fails transiently (all retries
exhausted) the deterministic local fallback generator supplies them, so a
service outage never leaves the caller without suggestions. -/
theorem orchestrator_never_empty (cfg : Config) (svc : Nat → ServiceOutcome)
    (m : ContentMetrics) (miss : List String) :
    (orchestrate cfg svc m miss).suggestions ≠ [] ∧
    (∀ s ∈ (orchestrate cfg svc m miss).suggestions,
      wellFormedSuggestion s = true) ∧
    (cfg.aiEnabled = false →
      (orchestrate cfg svc m miss).suggestions
        = sortByPriorityClass (fallbackSuggestions m miss)) ∧
    ((∀ i, svc i = ServiceOutcome.transientFailure) →
      (orchestrate cfg svc m miss).suggestions
        = sortByPriorityClass (fallbackSuggestions m miss)) := by
  by_cases hA : cfg.aiEnabled
  · rcases hcall : callWithRetries svc 0 cfg.maxRetries with ⟨opt, k⟩
    cases opt with
    | none =>
      have hor : orchestrate cfg svc m miss =
          { suggestions := sortByPriorityClass (fallbackSuggestions m miss),
            retries := k, usedFallback := true } := by
        unfold orchestrate
        rw [if_pos hA, hcall]
      rw [hor]
      exact ⟨sortByPriorityClass_ne_nil (fallback_ne_nil m miss),
        fun s hs => fallback_wellFormed (mem_sortByPriorityClass.mp hs),
        fun _ => rfl, fun _ => rfl⟩
    | some raws =>
      by_cases hv : (raws.filterMap validateSuggestion).isEmpty = true
      · have hor : orchestrate cfg svc m miss =
            { suggestions := sortByPriorityClass (fallbackSuggestions m miss),
              retries := k, usedFallback := true } := by
          unfold orchestrate
          rw [if_pos hA, hcall]
          simp only [if_pos hv]
        rw [hor]
        exact ⟨sortByPriorityClass_ne_nil (fallback_ne_nil m miss),
          fun s hs => fallback_wellFormed (mem_sortByPriorityClass.mp hs),
          fun _ => rfl, fun _ => rfl⟩
      · have hor : orchestrate cfg svc m miss =
            { suggestions :=
                sortByPriorityClass (raws.filterMap validateSuggestion),
              retries := k, usedFallback := false } := by
          unfold orchestrate
          rw [if_pos hA, hcall]
          simp only [if_neg hv]
        have hne : raws.filterMap validateSuggestion ≠ [] := by
          simpa [List.isEmpty_iff] using hv
        rw [hor]
        refine ⟨sortByPriorityClass_ne_nil hne, ?_, ?_, ?_⟩
        · intro s hs
          rcases List.mem_filterMap.mp (mem_sortByPriorityClass.mp hs)
            with ⟨r, _, hr⟩
          exact validate_wellFormed hr
        · intro hfalse
          exact absurd (hA.symm.trans hfalse) (by decide)
        · intro hall
          rw [callWithRetries_all_transient svc hall cfg.maxRetries 0] at hcall
          injection hcall with h1 h2
          exact Option.noConfusion h1
  · have hF : cfg.aiEnabled = false := by
      revert hA
      cases cfg.aiEnabled <;> simp
    rw [orchestrate_disabled cfg hF svc m miss]
    exact ⟨sortByPriorityClass_ne_nil (fallback_ne_nil m miss),
      fun s hs => fallback_wellFormed (mem_sortByPriorityClass.mp hs),
      fun _ => rfl, fun _ => rfl⟩

/-- Witness for claim C1: with the service disabled and a permanently
failing stub, the fallback suggestions come back and are non-empty. -/
theorem orchestrator_never_empty_witness :
    (orchestrate ⟨false, 3⟩ (fun _ => ServiceOutcome.transientFailure)
        ⟨0, 0, 0, 0⟩ []).suggestions
      = sortByPriorityClass (fallbackSuggestions ⟨0, 0, 0, 0⟩ []) ∧
    (orchestrate ⟨false, 3⟩ (fun _ => ServiceOutcome.transientFailure)
        ⟨0, 0, 0, 0⟩ []).suggestions ≠ [] :=
  ⟨(orchestrator_never_empty ⟨false, 3⟩
      (fun _ => ServiceOutcome.transientFailure) ⟨0, 0, 0, 0⟩ []).2.2.1 rfl,
   (orchestrator_never_empty ⟨false, 3⟩
      (fun _ => ServiceOutcome.transientFailure) ⟨0, 0, 0, 0⟩ []).1⟩

end ClaimC1

section ClaimC4

/-- Claim C4: against a stub that fails transiently exactly 3 times and then
succeeds, the orchestrator (3-retry configuration) returns the successful
validated response having made exactly 3 retries; a non-retryable failure
triggers no retry and immediate failover to the fallback. -/
theorem retry_count_policy (cfg : Config) (raws : List RawSuggestion)
    (m : ContentMetrics) (miss : List String)
    (hA : cfg.aiEnabled = true) (hR : cfg.maxRetries = 3)
    (hv : raws.filterMap validateSuggestion ≠ []) :
    orchestrate cfg
        (fun i => if i < 3 then ServiceOutcome.transientFailure
         else ServiceOutcome.success raws) m miss
      = { suggestions := sortByPriorityClass (raws.filterMap validateSuggestion),
          retries := 3, usedFallback := false } ∧
    (∀ svcF : Nat → ServiceOutcome, svcF 0 = ServiceOutcome.fatalFailure →
      orchestrate cfg svcF m miss
        = { suggestions := sortByPriorityClass (fallbackSuggestions m miss),
            retries := 0, usedFallback := true }) := by
  have hvv : (raws.filterMap validateSuggestion).isEmpty = false :=
    List.isEmpty_eq_false.mpr hv
  constructor
  · have hcall : callWithRetries
        (fun i => if i < 3 then ServiceOutcome.transientFailure
         else ServiceOutcome.success raws) 0 3 = (some raws, 3) := by
      simp [callWithRetries]
    unfold orchestrate
    rw [hA, if_pos rfl, hR]
    simp only [hcall]
    have hni : ¬((raws.filterMap validateSuggestion).isEmpty = true) := by
      simp [hvv]
    rw [if_neg hni]
  · intro svcF hF
    have hcall : ∀ r, callWithRetries svcF 0 r = (none, 0) := by
      intro r
      cases r with
      | zero => rw [callWithRetries, hF]
      | succ n => rw [callWithRetries, hF]
    unfold orchestrate
    rw [hA, if_pos rfl, hcall cfg.maxRetries]

/-- Witness for claim C4 at a concrete one-suggestion payload. -/
theorem retry_count_policy_witness :
    (orchestrate ⟨true, 3⟩
        (fun i => if i < 3 then ServiceOutcome.transientFailure
         else ServiceOutcome.success
          [{ category := "content", priority := "high",
             text := "Add metrics", rationale := none, examples := [] }])
        ⟨0, 0, 0, 0⟩ []).retries = 3 ∧
    (orchestrate ⟨true, 3⟩ (fun _ => ServiceOutcome.fatalFailure)
        ⟨0, 0, 0, 0⟩ []).retries = 0 := by
  have h := retry_count_policy ⟨true, 3⟩
    [{ category := "content", priority := "high",
       text := "Add metrics", rationale := none, examples := [] }]
    ⟨0, 0, 0, 0⟩ [] rfl rfl (by decide)
  constructor
  · rw [h.1]
  · rw [h.2 (fun _ => ServiceOutcome.fatalFailure) rfl]

end ClaimC4

section ClaimC2

/-- Claim C2: for every non-blank input the pipeline returns an
AnalysisResult with every top-level field present (the four section keys in
particular), and no error other than the empty-document error ever escapes
to the caller. -/
theorem pipeline_total_shape (raw : String) (cfg : Config)
    (svc : Nat → ServiceOutcome) (now : YearMonth) :
    (raw.data.all Char.isWhitespace = false →
      ∃ r, (runPipeline raw cfg svc now).1 = Except.ok r) ∧
    (∀ e, (runPipeline raw cfg svc now).1 = Except.error e →
      e = PipelineError.emptyDocument) ∧
    (∀ r, (runPipeline raw cfg svc now).1 = Except.ok r →
      r.sections.map Prod.fst
        = ["contact", "experience", "skills", "education"]) := by
  by_cases hb : raw.data.all Char.isWhitespace = true
  · have hn : normalizeText raw = .error .emptyDocument := by
      unfold normalizeText
      rw [if_pos hb]
    have hp : runPipeline raw cfg svc now =
        (.error .emptyDocument, [.received, .normalizing, .failed]) := by
      unfold runPipeline
      rw [hn]
    rw [hp]
    refine ⟨?_, ?_, ?_⟩
    · intro hfalse
      exact absurd (hb.symm.trans hfalse) (by decide)
    · intro e he
      injection he with he
      exact he.symm
    · intro r hr
      exact Except.noConfusion hr
  · obtain ⟨t, hn⟩ : ∃ t, normalizeText raw = .ok t := by
      unfold normalizeText
      rw [if_neg hb]
      exact ⟨_, rfl⟩
    refine ⟨?_, ?_, ?_⟩
    · unfold runPipeline
      rw [hn]
      exact fun _ => ⟨_, rfl⟩
    · unfold runPipeline
      rw [hn]
      intro e he
      exact Except.noConfusion he
    · unfold runPipeline
      rw [hn]
      intro r hr
      injection hr with hr
      subst hr
      rfl

/-- Witness for claim C2 at a concrete non-blank document. -/
theorem pipeline_total_shape_witness :
    ∃ r, (runPipeline "Led team of 5" ⟨false, 3⟩
        (fun _ => ServiceOutcome.transientFailure) ⟨2024, 6⟩).1
      = Except.ok r :=
  (pipeline_total_shape "Led team of 5" ⟨false, 3⟩
    (fun _ => ServiceOutcome.transientFailure) ⟨2024, 6⟩).1 (by decide)

end ClaimC2

section ClaimC3

/-- Claim C3: the pipeline fails with the empty-document error exactly on
empty or whitespace-only input; on such input it stops at the Normalizing
stage (no later stage runs, no degraded result), and the Failed terminal
state is reachable only out of Normalizing. -/
theorem empty_document_iff (raw : String) (cfg : Config)
    (svc : Nat → ServiceOutcome) (now : YearMonth) :
    ((runPipeline raw cfg svc now).1
        = Except.error PipelineError.emptyDocument
      ↔ raw.data.all Char.isWhitespace = true) ∧
    (raw.data.all Char.isWhitespace = true →
      (runPipeline raw cfg svc now).2
        = [Stage.received, Stage.normalizing, Stage.failed]) ∧
    (Stage.failed ∈ (runPipeline raw cfg svc now).2 →
      (runPipeline raw cfg svc now).2
        = [Stage.received, Stage.normalizing, Stage.failed]) := by
  by_cases hb : raw.data.all Char.isWhitespace = true
  · have hn : normalizeText raw = .error .emptyDocument := by
      unfold normalizeText
      rw [if_pos hb]
    have hp : runPipeline raw cfg svc now =
        (.error .emptyDocument, [.received, .normalizing, .failed]) := by
      unfold runPipeline
      rw [hn]
    rw [hp]
    exact ⟨⟨fun _ => hb, fun _ => rfl⟩, fun _ => rfl, fun _ => rfl⟩
  · obtain ⟨t, hn⟩ : ∃ t, normalizeText raw = .ok t := by
      unfold normalizeText
      rw [if_neg hb]
      exact ⟨_, rfl⟩
    have h2 : (runPipeline raw cfg svc now).2
        = [Stage.received, Stage.normalizing, Stage.segmenting,
           Stage.extracting, Stage.scoring, Stage.suggesting,
           Stage.assembled] := by
      unfold runPipeline
      rw [hn]
    obtain ⟨r, h1⟩ : ∃ r, (runPipeline raw cfg svc now).1 = Except.ok r := by
      unfold runPipeline
      rw [hn]
      exact ⟨_, rfl⟩
    refine ⟨⟨?_, ?_⟩, ?_, ?_⟩
    · intro he
      rw [h1] at he
      exact Except.noConfusion he
    · intro h
      exact absurd h hb
    · intro h
      exact absurd h hb
    · intro hmem
      rw [h2] at hmem
      exact absurd hmem (by decide)

/-- Witness for claim C3 at a concrete whitespace-only document. -/
theorem empty_document_iff_witness :
    (runPipeline " \t " ⟨false, 3⟩
        (fun _ => ServiceOutcome.transientFailure) ⟨2024, 6⟩).1
      = Except.error PipelineError.emptyDocument ∧
    (runPipeline " \t " ⟨false, 3⟩
        (fun _ => ServiceOutcome.transientFailure) ⟨2024, 6⟩).2
      = [Stage.received, Stage.normalizing, Stage.failed] :=
  ⟨(empty_document_iff " \t " ⟨false, 3⟩
      (fun _ => ServiceOutcome.transientFailure) ⟨2024, 6⟩).1.mpr (by decide),
   (empty_document_iff " \t " ⟨false, 3⟩
      (fun _ => ServiceOutcome.transientFailure) ⟨2024, 6⟩).2.1 (by decide)⟩

end ClaimC3

section ClaimC7

/-- Claim C7: with the AI service disabled (fallback path) the pipeline is a
function of the input text and configuration alone: two runs over any two
service behaviors produce identical results, scores, metrics and suggestion
ordering included. -/
theorem pipeline_deterministic (raw : String) (cfg : Config)
    (svc1 svc2 : Nat → ServiceOutcome) (now : YearMonth)
    (h : cfg.aiEnabled = false) :
    runPipeline raw cfg svc1 now = runPipeline raw cfg svc2 now := by
  unfold runPipeline
  cases hn : normalizeText raw with
  | error e => rfl
  | ok text => simp only [orchestrate_disabled cfg h]

/-- Witness for claim C7: two concrete runs against a transiently failing
and a fatally failing service stub coincide. -/
theorem pipeline_deterministic_witness :
    runPipeline "Led team of 5" ⟨false, 3⟩
        (fun _ => ServiceOutcome.transientFailure) ⟨2024, 6⟩
      = runPipeline "Led team of 5" ⟨false, 3⟩
        (fun _ => ServiceOutcome.fatalFailure) ⟨2024, 6⟩ :=
  pipeline_deterministic "Led team of 5" ⟨false, 3⟩
    (fun _ => ServiceOutcome.transientFailure)
    (fun _ => ServiceOutcome.fatalFailure) ⟨2024, 6⟩ rfl

end ClaimC7

end ResumerAI
